import Mathlib

/-!
Shallow embedding of the bowling-lane-management controller
(`QuickGame.cpp`, `MachineInterface.cpp`, `LaneClient.cpp`) and proofs
about it.  C++ `int` fields are modelled as `Int`; `QVector<T>` as
`List T`.  Out-of-bounds vector accesses (undefined behaviour in the
source) are modelled by `Option`-valued accessors; where a mutating
member function would dereference out of bounds, the model leaves the
state unchanged (the states exercised by the theorems below never hit
those cases).
-/

namespace Bowling

/-- `QuickGame::PIN_VALUES = {2, 3, 5, 3, 2}` (lTwo, lThree, cFive, rThree, rTwo). -/
def PIN_VALUES : List Int := [2, 3, 5, 3, 2]

/-- A single throw: `Ball.pins` (5 flags, 1 = pin knocked down by this
ball) and its Canadian five-pin `value`. -/
structure Ball where
  pins : List Int
  value : Int
deriving Repr, DecidableEq

/-- `Ball::calculateValue`: 0 when the vector is not of length 5,
otherwise the sum of `PIN_VALUES[i]` over the positions `i` with
`pins[i] == 1`. -/
def calculateValue (pins : List Int) : Int :=
  if pins.length ≠ 5 then 0
  else ((List.zip pins PIN_VALUES).map
    (fun p => if p.1 = 1 then p.2 else 0)).sum

/-- The `Ball(pins)` constructor as used by `processBall`: value 0 is
passed, so the value is recomputed from the pins. -/
def ballOfPins (pins : List Int) : Ball :=
  { pins := pins, value := calculateValue pins }

/-- `Ball()` default constructor: pins `{0,0,0,0,0}`, recomputed value 0. -/
def missBall : Ball := ballOfPins [0, 0, 0, 0, 0]

/-- A frame: its balls and the score bookkeeping fields. -/
structure Frame where
  balls : List Ball
  totalScore : Int
  frameScore : Int
  isComplete : Bool
deriving Repr, DecidableEq

/-- `Frame()` constructor. -/
def emptyFrame : Frame :=
  { balls := [], totalScore := 0, frameScore := 0, isComplete := false }

/-- `Frame::isStrike`: nonempty and the first ball has value 15. -/
def Frame.isStrike (f : Frame) : Bool :=
  match f.balls with
  | [] => false
  | b :: _ => b.value = 15

/-- `Frame::getFrameTotal`: sum of the ball values of the frame. -/
def Frame.getFrameTotal (f : Frame) : Int :=
  (f.balls.map (·.value)).sum

/-- `Frame::isSpare`: at least two balls, not a strike, values sum to 15. -/
def Frame.isSpare (f : Frame) : Bool :=
  if f.balls.length < 2 || f.isStrike then false
  else f.getFrameTotal = 15

/-- `Frame::shouldComplete(frameNumber)`. -/
def Frame.shouldComplete (f : Frame) (frameNumber : Int) : Bool :=
  if frameNumber < 9 then
    if f.isStrike then true
    else if f.balls.length ≥ 2 then
      if f.isSpare then true
      else f.balls.length ≥ 3
    else false
  else
    if f.balls.length ≥ 3 then true
    else if f.balls.length = 2 then
      match f.balls with
      | b0 :: b1 :: _ => b0.value < 15 && b0.value + b1.value < 15
      | _ => false
    else false

end Bowling

namespace Bowling

/-- Claim statement helper (spec side): the values of the next two
balls after frame index `f`, taken in order from the subsequent
frames. -/
def nextTwoBallsValue (f : Nat) (frames : List Frame) : Int :=
  ((((frames.drop (f + 1)).flatMap (·.balls)).take 2).map (·.value)).sum

/-- The inner/outer loop of `QuickGame::getStrikeBonus`: walk the
frames after the strike frame in order, taking ball values while
`ballsNeeded > 0` (`k` is the number of balls still needed). -/
def strikeBonusLoop (k : Nat) (frs : List Frame) : Int :=
  match frs with
  | [] => 0
  | fr :: rest =>
    if k = 0 then 0
    else (((fr.balls.take k).map (·.value)).sum) +
      strikeBonusLoop (k - fr.balls.length) rest

/-- `QuickGame::getStrikeBonus`: no bonus for frame index ≥ 8;
otherwise the next two ball values taken from the subsequent frames. -/
def getStrikeBonus (frameIndex : Nat) (frames : List Frame) : Int :=
  if frameIndex ≥ 8 then 0
  else strikeBonusLoop 2 (frames.drop (frameIndex + 1))

/-- `QuickGame::getSpareBonus`: no bonus for frame index ≥ 9;
otherwise the first ball value of the next frame, 0 when absent. -/
def getSpareBonus (frameIndex : Nat) (frames : List Frame) : Int :=
  if frameIndex ≥ 9 then 0
  else
    match frames.get? (frameIndex + 1) with
    | some nf =>
      match nf.balls with
      | b :: _ => b.value
      | [] => 0
    | none => 0

/-- `QuickGame::calculateFrameScore`. -/
def calculateFrameScore (frame : Frame) (frameIndex : Nat)
    (allFrames : List Frame) : Int :=
  if frameIndex < 9 then
    if frame.isStrike then 15 + getStrikeBonus frameIndex allFrames
    else if frame.isSpare then 15 + getSpareBonus frameIndex allFrames
    else frame.getFrameTotal
  else frame.getFrameTotal

end Bowling

namespace Bowling

/-- Claim C4 helper (spec side): sum of the fixed pin values over the
positions marked down, written as an indexed sum. -/
def specPinSum (pins : List Int) : Int :=
  ∑ i ∈ Finset.range 5,
    if pins.getD i 0 = 1 then PIN_VALUES.getD i 0 else 0

theorem calculateValue_nonneg (pins : List Int) : 0 ≤ calculateValue pins := by
  unfold calculateValue
  split
  · exact le_refl 0
  · rename_i h
    apply List.sum_nonneg
    intro x hx
    simp only [List.mem_map] at hx
    obtain ⟨p, hp, rfl⟩ := hx
    split
    · have hmem : p.2 ∈ PIN_VALUES := (List.of_mem_zip hp).2
      simp only [PIN_VALUES, List.mem_cons, List.not_mem_nil, or_false] at hmem
      rcases hmem with h | h | h | h | h <;> omega
    · exact le_refl 0

theorem calculateValue_le (pins : List Int) : calculateValue pins ≤ 15 := by
  unfold calculateValue
  split
  · omega
  · rename_i h
    have hlen : pins.length = 5 := by omega
    match pins, hlen with
    | [a, b, c, d, e], _ =>
      simp only [PIN_VALUES, List.zip, List.zipWith, List.map, List.sum_cons,
        List.sum_nil]
      split <;> split <;> split <;> split <;> split <;> omega

/-- C4: for every pin vector of length 5 with entries in {0,1},
`Ball::calculateValue` returns the sum of the fixed pin values
{2,3,5,3,2} over the positions marked down, and the value lies in
[0, 15]. -/
theorem C4_ball_value (pins : List Int)
    (hlen : pins.length = 5)
    (hval : ∀ x ∈ pins, x = 0 ∨ x = 1) :
    calculateValue pins = specPinSum pins ∧
      0 ≤ calculateValue pins ∧ calculateValue pins ≤ 15 := by
  refine ⟨?_, calculateValue_nonneg pins, calculateValue_le pins⟩
  match pins, hlen with
  | [a, b, c, d, e], _ =>
    simp only [calculateValue, specPinSum, PIN_VALUES, Finset.sum_range_succ,
      Finset.sum_range_zero, List.zip, List.zipWith, List.map, List.sum_cons,
      List.sum_nil, List.getD, List.length, List.get?]
    norm_num
    split <;> split <;> split <;> split <;> split <;> omega

/-- Witness for C4 at the concrete pin vector `[1,0,1,0,1]`
(L2, C5 and R2 down: value 9). -/
theorem C4_ball_value_witness :
    calculateValue [1, 0, 1, 0, 1] = specPinSum [1, 0, 1, 0, 1] ∧
      0 ≤ calculateValue [1, 0, 1, 0, 1] ∧
      calculateValue [1, 0, 1, 0, 1] ≤ 15 :=
  C4_ball_value [1, 0, 1, 0, 1] (by decide) (by decide)

end Bowling

namespace Bowling

theorem strikeBonusLoop_eq (k : Nat) (frs : List Frame) :
    strikeBonusLoop k frs =
      (((frs.flatMap (·.balls)).take k).map (·.value)).sum := by
  induction frs generalizing k with
  | nil => simp [strikeBonusLoop]
  | cons fr rest ih =>
    rcases Nat.eq_zero_or_pos k with hk | hk
    · subst hk; simp [strikeBonusLoop]
    · have hk0 : k ≠ 0 := Nat.pos_iff_ne_zero.mp hk
      simp only [strikeBonusLoop, hk0, if_false, List.flatMap_cons,
        List.take_append_eq_append_take, List.map_append, List.sum_append,
        ih]

/-- Concrete frames for the C1 counterexample: frames 0–7 untouched,
frame 8 a strike, frame 9 holding two 5-valued balls (centre pin). -/
def c1StrikeFrame : Frame :=
  { emptyFrame with balls := [ballOfPins [1, 1, 1, 1, 1]] }

def c1Frames : List Frame :=
  (List.replicate 8 emptyFrame) ++
    [c1StrikeFrame,
     { emptyFrame with balls := [ballOfPins [0, 0, 1, 0, 0],
                                 ballOfPins [0, 0, 1, 0, 0]] }]

/-- C1 counterexample: at frame index 8 a strike scores 15, not 15 plus
the next two ball values (here 10), so the claim fails at f = 8. -/
theorem C1_counterexample :
    calculateFrameScore c1StrikeFrame 8 c1Frames ≠
      15 + nextTwoBallsValue 8 c1Frames := by decide

/-- C1 (amended): for frame indices 0–7 a strike frame scores 15 plus
the values of the next two balls taken in order from the subsequent
frames (two-level lookahead in normal play); for frame index 8 the
strike bonus is 0 and the frame scores exactly 15. -/
theorem C1_strike_score (frames : List Frame) (f : Nat) (fr : Frame)
    (hs : fr.isStrike = true) :
    (f < 8 → calculateFrameScore fr f frames = 15 + nextTwoBallsValue f frames) ∧
      calculateFrameScore fr 8 frames = 15 := by
  constructor
  · intro hf
    have h9 : f < 9 := by omega
    have h8 : ¬ f ≥ 8 := by omega
    simp only [calculateFrameScore, if_pos h9, hs, if_true, getStrikeBonus,
      h8, if_false, strikeBonusLoop_eq, nextTwoBallsValue]
  · simp [calculateFrameScore, getStrikeBonus, hs]

/-- Witness for C1 (amended) at a concrete strike in frame 0 followed by
two 5-valued balls. -/
theorem C1_strike_score_witness :
    (0 < 8 → calculateFrameScore c1StrikeFrame 0
        ([c1StrikeFrame,
          { emptyFrame with balls := [ballOfPins [0, 0, 1, 0, 0],
                                      ballOfPins [0, 0, 1, 0, 0]] }]) =
      15 + nextTwoBallsValue 0
        ([c1StrikeFrame,
          { emptyFrame with balls := [ballOfPins [0, 0, 1, 0, 0],
                                      ballOfPins [0, 0, 1, 0, 0]] }])) ∧
      calculateFrameScore c1StrikeFrame 8
        ([c1StrikeFrame,
          { emptyFrame with balls := [ballOfPins [0, 0, 1, 0, 0],
                                      ballOfPins [0, 0, 1, 0, 0]] }]) = 15 :=
  C1_strike_score _ 0 c1StrikeFrame (by decide)

end Bowling

namespace Bowling

/-- A bowler (`Bowler` in `QuickGame.h`): name, 10 frames, current
frame index (C++ `int`, hence `Int`: `fromJson` can load any value),
and the running total. -/
structure Bowler where
  name : String
  frames : List Frame
  currentFrame : Int
  totalScore : Int
deriving Repr, DecidableEq

/-- `Bowler::Bowler(name)`: fresh bowler with 10 empty frames. -/
def mkBowler (name : String) : Bowler :=
  { name := name, frames := List.replicate 10 emptyFrame,
    currentFrame := 0, totalScore := 0 }

/-- The `static Bowler emptyBowler` returned by `getCurrentBowler`
for an out-of-range index (default-constructed, empty name). -/
def emptyBowler : Bowler := mkBowler ""

/-- `Bowler::isComplete`: `currentFrame >= 10`, or `currentFrame == 9`
and the tenth frame is complete.  (`frames[9]` with fewer than 10
frames would be undefined behaviour; modelled as `false` via `getD`.) -/
def Bowler.isComplete (b : Bowler) : Bool :=
  if b.currentFrame ≥ 10 then true
  else if b.currentFrame = 9 then (b.frames.getD 9 emptyFrame).isComplete
  else false

/-- The `const` overload of `Bowler::getCurrentFrame`: the last frame
when `currentFrame >= frames.size()`, otherwise `frames[currentFrame]`
(`none` models the out-of-bounds access for a negative index, and the
`frames.last()` call on an empty vector). -/
def Bowler.getCurrentFrame (b : Bowler) : Option Frame :=
  if b.currentFrame ≥ (b.frames.length : Int) then b.frames.getLast?
  else if b.currentFrame < 0 then none
  else b.frames.get? b.currentFrame.toNat

/-- The mutation performed by the non-`const`
`Bowler::getCurrentFrame`: clamp `currentFrame` to `frames.size()-1`
when it is past the end. -/
def Bowler.clampFrameIndex (b : Bowler) : Bowler :=
  if b.currentFrame ≥ (b.frames.length : Int) then
    { b with currentFrame := (b.frames.length : Int) - 1 }
  else b

/-- `Bowler::nextFrame`: advance, never past index 9. -/
def Bowler.nextFrame (b : Bowler) : Bowler :=
  if b.currentFrame < 9 then { b with currentFrame := b.currentFrame + 1 }
  else b

/-- `Bowler::reset`. -/
def Bowler.reset (b : Bowler) : Bowler :=
  { b with
    frames := List.replicate 10 emptyFrame, currentFrame := 0,
    totalScore := 0 }

/-- The `QuickGame` state fields the modelled operations touch. -/
structure GameState where
  bowlers : List Bowler
  currentBowlerIndex : Int
  gameActive : Bool
  isHeld : Bool
  gamesPlayed : Int
  gameLimit : Int
deriving Repr, DecidableEq

/-- State after the `QuickGame` constructor. -/
def initialState : GameState :=
  { bowlers := [], currentBowlerIndex := 0, gameActive := false,
    isHeld := false, gamesPlayed := 0, gameLimit := 0 }

/-- The per-frame loop of `QuickGame::calculateBowlerScore`: `i` is the
frame index, the `Int` accumulator is `runningTotal`; returns the
updated frames and the final running total.  Bonus lookups read only
the (unmodified) `balls` fields, so passing the original frame list
for `allFrames` is equivalent to the C++ in-place update. -/
def scoreFramesLoop (allFrames : List Frame) :
    Nat → List Frame → Int → List Frame × Int
  | _, [], running => ([], running)
  | i, fr :: rest, running =>
    if fr.balls.isEmpty then
      let r := scoreFramesLoop allFrames (i + 1) rest running
      ({ fr with frameScore := 0, totalScore := running } :: r.1, r.2)
    else
      let fs := calculateFrameScore fr i allFrames
      let r := scoreFramesLoop allFrames (i + 1) rest (running + fs)
      ({ fr with frameScore := fs, totalScore := running + fs } :: r.1, r.2)

/-- `QuickGame::calculateBowlerScore`. -/
def calculateBowlerScore (b : Bowler) : Bowler :=
  { b with frames := (scoreFramesLoop b.frames 0 b.frames 0).1,
           totalScore := (scoreFramesLoop b.frames 0 b.frames 0).2 }

/-- `QuickGame::updateScoring`. -/
def updateScoring (s : GameState) : GameState :=
  { s with bowlers := s.bowlers.map calculateBowlerScore }

/-- `QuickGame::isGameComplete`: `false` on an empty roster, otherwise
every bowler complete. -/
def isGameComplete (s : GameState) : Bool :=
  if s.bowlers.isEmpty then false
  else s.bowlers.all Bowler.isComplete

/-- The state effect of `QuickGame::endGame` (timer/machine shutdown
and the results payload are I/O). -/
def endGame (s : GameState) : GameState :=
  { s with gameActive := false }

/-- `QuickGame::checkGameCompletion`. -/
def checkGameCompletion (s : GameState) : GameState :=
  if isGameComplete s then
    let s' := { s with gamesPlayed := s.gamesPlayed + 1 }
    if s.gameLimit > 0 ∧ s'.gamesPlayed ≥ s.gameLimit then endGame s'
    else s'
  else s

/-- `QuickGame::nextPlayer`.  Callers guarantee a nonempty roster and
an in-range index; the out-of-range dereference (undefined behaviour)
is modelled as leaving the state unchanged. -/
def nextPlayer (s : GameState) : GameState :=
  if 0 ≤ s.currentBowlerIndex ∧ s.currentBowlerIndex.toNat < s.bowlers.length then
    let i := s.currentBowlerIndex.toNat
    let b := (s.bowlers.getD i emptyBowler).clampFrameIndex
    let frameComplete :=
      if 0 ≤ b.currentFrame then
        (b.frames.getD b.currentFrame.toNat emptyFrame).isComplete
      else false
    let b' := if frameComplete ∧ b.currentFrame < 9 then
        { b with currentFrame := b.currentFrame + 1 }
      else b
    let s' := { s with bowlers := s.bowlers.set i b' }
    let s'' := { s' with
      currentBowlerIndex := (s'.currentBowlerIndex + 1) % (s'.bowlers.length : Int) }
    checkGameCompletion s''
  else s

/-- `QuickGame::checkFrameCompletion` (called only from `processBall`;
the clamp performed by the non-`const` `getCurrentFrame` is written
back in every branch, as the C++ reference semantics does). -/
def checkFrameCompletion (s : GameState) : GameState :=
  if 0 ≤ s.currentBowlerIndex ∧ s.currentBowlerIndex.toNat < s.bowlers.length then
    let i := s.currentBowlerIndex.toNat
    let b := (s.bowlers.getD i emptyBowler).clampFrameIndex
    if 0 ≤ b.currentFrame ∧ b.currentFrame.toNat < b.frames.length then
      let fi := b.currentFrame.toNat
      let fr := b.frames.getD fi emptyFrame
      if fr.shouldComplete b.currentFrame then
        let b' := { b with frames := b.frames.set fi { fr with isComplete := true } }
        nextPlayer { s with bowlers := s.bowlers.set i b' }
      else { s with bowlers := s.bowlers.set i b }
    else s
  else s

/-- `QuickGame::processBall`: guard, append the new ball to the current
bowler's current frame, rescore, and check frame completion.  Signals
(`specialEffect`, `ballProcessed`, `gameUpdated`) are notifications and
carry no state.  Note: there is no validation of `pins` whatsoever. -/
def processBall (pins : List Int) (s : GameState) : GameState :=
  if ¬s.gameActive ∨ s.isHeld ∨ s.bowlers.isEmpty then s
  else if 0 ≤ s.currentBowlerIndex ∧ s.currentBowlerIndex.toNat < s.bowlers.length then
    let i := s.currentBowlerIndex.toNat
    let b := (s.bowlers.getD i emptyBowler).clampFrameIndex
    if 0 ≤ b.currentFrame ∧ b.currentFrame.toNat < b.frames.length then
      let fi := b.currentFrame.toNat
      let fr := b.frames.getD fi emptyFrame
      let fr' := { fr with balls := fr.balls ++ [ballOfPins pins] }
      let b' := { b with frames := b.frames.set fi fr' }
      let s1 := { s with bowlers := s.bowlers.set i b' }
      checkFrameCompletion (updateScoring s1)
    else s
  else s

/-- The ball-filling loop of `QuickGame::skipPlayer`: append misses
while the frame has fewer than 3 balls and would not complete. -/
def fillMisses (fr : Frame) (fn : Int) : Frame :=
  if h : fr.balls.length < 3 ∧ fr.shouldComplete fn = false then
    fillMisses { fr with balls := fr.balls ++ [missBall] } fn
  else fr
termination_by 3 - fr.balls.length
decreasing_by simp only [List.length_append, List.length_cons, List.length_nil]; omega

/-- `QuickGame::skipPlayer`. -/
def skipPlayer (s : GameState) : GameState :=
  if ¬s.gameActive ∨ s.bowlers.isEmpty then s
  else if 0 ≤ s.currentBowlerIndex ∧ s.currentBowlerIndex.toNat < s.bowlers.length then
    let i := s.currentBowlerIndex.toNat
    let b := (s.bowlers.getD i emptyBowler).clampFrameIndex
    if 0 ≤ b.currentFrame ∧ b.currentFrame.toNat < b.frames.length then
      let fi := b.currentFrame.toNat
      let fr := fillMisses (b.frames.getD fi emptyFrame) b.currentFrame
      let b' := { b with frames := b.frames.set fi { fr with isComplete := true } }
      let s1 := { s with bowlers := s.bowlers.set i b' }
      nextPlayer (updateScoring s1)
    else s
  else s

/-- `QuickGame::holdGame` (the machine `hold` command is I/O). -/
def holdGame (s : GameState) : GameState :=
  { s with isHeld := !s.isHeld }

/-- `QuickGame::startGame`: keep the nonempty player names; fall back
to the default two-player roster when none remain; reset the game
state.  (`gl` is `gameData["game_limit"]`.) -/
def startGame (names : List String) (gl : Int) (s : GameState) : GameState :=
  let roster := names.filter (fun n => n ≠ "")
  let bowlers :=
    (if roster.isEmpty then ["Player 1", "Player 2"] else roster).map mkBowler
  { s with
    bowlers := bowlers, currentBowlerIndex := 0, gameActive := true,
    isHeld := false, gamesPlayed := 0, gameLimit := gl }

/-- `QuickGame::resetGame` (machine reset command is I/O). -/
def resetGame (s : GameState) : GameState :=
  { s with
    bowlers := s.bowlers.map Bowler.reset, currentBowlerIndex := 0,
    gamesPlayed := 0 }

/-- `QuickGame::getCurrentBowler`: the indexed bowler when the index is
in range, the static default-constructed bowler otherwise. -/
def getCurrentBowler (s : GameState) : Bowler :=
  if 0 ≤ s.currentBowlerIndex ∧ s.currentBowlerIndex < (s.bowlers.length : Int)
  then s.bowlers.getD s.currentBowlerIndex.toNat emptyBowler
  else emptyBowler

/-- `QuickGame::getCurrentBall`: one past the ball count of the current
frame (`none` when the frame access would be out of bounds). -/
def getCurrentBall (s : GameState) : Option Int :=
  (getCurrentBowler s).getCurrentFrame.map (fun fr => (fr.balls.length : Int) + 1)

/-- The inner loop of `QuickGame::getCurrentPinStates`: knock down the
pins marked `1` in a ball (positions past `pins.size()` untouched). -/
def knockPins (states : List Int) (ball : Ball) : List Int :=
  states.mapIdx (fun i v => if ball.pins.getD i 0 = 1 then 0 else v)

/-- `QuickGame::getCurrentPinStates`: start from all pins up and apply
each ball of the current frame. -/
def getCurrentPinStates (s : GameState) : Option (List Int) :=
  (getCurrentBowler s).getCurrentFrame.map
    (fun fr => fr.balls.foldl knockPins [1, 1, 1, 1, 1])

/-- Game states reachable from a fresh `QuickGame` through the public
operations. -/
inductive Reachable : GameState → Prop where
  | init : Reachable initialState
  | step_start (names : List String) (gl : Int) {s : GameState} :
      Reachable s → Reachable (startGame names gl s)
  | step_ball (pins : List Int) {s : GameState} :
      Reachable s → Reachable (processBall pins s)
  | step_skip {s : GameState} : Reachable s → Reachable (skipPlayer s)
  | step_hold {s : GameState} : Reachable s → Reachable (holdGame s)
  | step_end {s : GameState} : Reachable s → Reachable (endGame s)
  | step_reset {s : GameState} : Reachable s → Reachable (resetGame s)

end Bowling

namespace Bowling

/-- C9: `startGame` always resets to fresh bowlers, active-bowler index
0, game active and not held; when the roster yields no players (empty
list or all-empty names), the default two-player roster is used, and
otherwise the filtered roster is used as given. -/
theorem C9_startGame (names : List String) (gl : Int) (s : GameState) :
    (startGame names gl s).currentBowlerIndex = 0 ∧
      (startGame names gl s).gameActive = true ∧
      (startGame names gl s).isHeld = false ∧
      (∀ b ∈ (startGame names gl s).bowlers,
        b.frames = List.replicate 10 emptyFrame ∧
          b.currentFrame = 0 ∧ b.totalScore = 0) ∧
      ((names.filter (fun n => n ≠ "")).isEmpty = true →
        (startGame names gl s).bowlers =
          [mkBowler "Player 1", mkBowler "Player 2"]) ∧
      ((names.filter (fun n => n ≠ "")).isEmpty = false →
        (startGame names gl s).bowlers =
          (names.filter (fun n => n ≠ "")).map mkBowler) := by
  refine ⟨rfl, rfl, rfl, ?_, ?_, ?_⟩
  · intro b hb
    simp only [startGame, List.mem_map] at hb
    obtain ⟨n, _, rfl⟩ := hb
    exact ⟨rfl, rfl, rfl⟩
  · intro h; simp only [startGame, h]; simp
  · intro h; simp only [startGame, h]; simp

/-- Witness for C9 at a roster of two empty names: the default
two-player roster is installed and the game is active. -/
theorem C9_startGame_witness :
    (startGame ["", ""] 0 initialState).bowlers =
        [mkBowler "Player 1", mkBowler "Player 2"] ∧
      (startGame ["", ""] 0 initialState).gameActive = true :=
  ⟨(C9_startGame ["", ""] 0 initialState).2.2.2.2.1 (by decide),
   (C9_startGame ["", ""] 0 initialState).2.1⟩

/-- C5 counterexample: on an empty roster `isGameComplete` returns
`false` while the claimed right-hand side holds vacuously, so the
biconditional fails. -/
theorem C5_counterexample :
    ¬ (isGameComplete initialState = true ↔
        ∀ b ∈ initialState.bowlers,
          b.currentFrame = 9 ∧
            (b.frames.getD 9 emptyFrame).isComplete = true) := by
  decide

theorem bowler_isComplete_iff (b : Bowler) :
    b.isComplete = true ↔
      10 ≤ b.currentFrame ∨
        (b.currentFrame = 9 ∧ (b.frames.getD 9 emptyFrame).isComplete = true) := by
  unfold Bowler.isComplete
  split
  · rename_i h
    simp only [true_iff]
    exact Or.inl h
  · rename_i h
    split
    · rename_i h9
      simp [h9]
    · rename_i h9
      simp [h9]
      omega

/-- C5 (amended): `isGameComplete()` is true iff the roster is nonempty
and every bowler is complete, where a bowler is complete when
`currentFrame >= 10`, or `currentFrame == 9` and the tenth frame is
complete. -/
theorem C5_isGameComplete (s : GameState) :
    isGameComplete s = true ↔
      s.bowlers ≠ [] ∧
        ∀ b ∈ s.bowlers,
          10 ≤ b.currentFrame ∨
            (b.currentFrame = 9 ∧
              (b.frames.getD 9 emptyFrame).isComplete = true) := by
  unfold isGameComplete
  split
  · rename_i h
    simp only [List.isEmpty_iff] at h
    simp [h]
  · rename_i h
    simp only [List.isEmpty_iff] at h
    simp only [List.all_eq_true, h, ne_eq, not_false_iff, true_and]
    constructor
    · intro ha b hb; exact (bowler_isComplete_iff b).mp (ha b hb)
    · intro ha b hb; exact (bowler_isComplete_iff b).mpr (ha b hb)

end Bowling

namespace Bowling

/-- A state whose only bowler has `currentFrame = -1` (loadable through
`Bowler::fromJson` / `loadGameState`): `frames[currentFrame]` indexes
out of bounds. -/
def c10Bad : GameState :=
  { bowlers := [{ mkBowler "A" with currentFrame := -1 }],
    currentBowlerIndex := 0, gameActive := true, isHeld := false,
    gamesPlayed := 0, gameLimit := 0 }

/-- C10 counterexample: with a negative `currentFrame` the frame
accessors do go out of bounds (modelled as `none`), so the claimed
totality fails. -/
theorem C10_counterexample :
    ((getCurrentBowler c10Bad).getCurrentFrame).isSome = false ∧
      (getCurrentBall c10Bad).isSome = false ∧
      (getCurrentPinStates c10Bad).isSome = false := by
  decide

/-- C10 (amended): for every value of `currentBowlerIndex`, including
out-of-range ones, `getCurrentBowler` returns a bowler (the default
empty bowler when out of range); and provided every bowler has a
nonnegative `currentFrame` and a nonempty frame vector, the frame
accessors are total; `Bowler::getCurrentFrame` returns the last frame
whenever `currentFrame` is past the end. -/
theorem C10_query_totality (s : GameState)
    (hb : ∀ b ∈ s.bowlers, 0 ≤ b.currentFrame ∧ b.frames ≠ []) :
    ((getCurrentBowler s).getCurrentFrame).isSome = true ∧
      (getCurrentBall s).isSome = true ∧
      (getCurrentPinStates s).isSome = true ∧
      (∀ b : Bowler, (b.frames.length : Int) ≤ b.currentFrame →
        b.getCurrentFrame = b.frames.getLast?) := by
  have hcb : 0 ≤ (getCurrentBowler s).currentFrame ∧
      (getCurrentBowler s).frames ≠ [] := by
    unfold getCurrentBowler
    split
    · rename_i h
      apply hb
      have hlt : s.currentBowlerIndex.toNat < s.bowlers.length := by omega
      rw [List.getD_eq_getElem _ _ hlt]
      exact List.getElem_mem hlt
    · refine ⟨le_refl 0, ?_⟩
      simp [emptyBowler, mkBowler]
  have hframe : ((getCurrentBowler s).getCurrentFrame).isSome = true := by
    unfold Bowler.getCurrentFrame
    split
    · rename_i h
      rw [List.getLast?_isSome]
      exact hcb.2
    · rename_i h
      rw [if_neg (by omega)]
      rw [Option.isSome_iff_exists]
      have hlt : (getCurrentBowler s).currentFrame.toNat <
          (getCurrentBowler s).frames.length := by omega
      exact ⟨_, List.get?_eq_get hlt⟩
  refine ⟨hframe, ?_, ?_, ?_⟩
  · unfold getCurrentBall
    rw [Option.isSome_map']
    exact hframe
  · unfold getCurrentPinStates
    rw [Option.isSome_map']
    exact hframe
  · intro b hpast
    unfold Bowler.getCurrentFrame
    rw [if_pos hpast]

/-- Witness for C10 (amended) at the fresh initial state (empty roster:
the default empty bowler is served and all accessors succeed). -/
theorem C10_query_totality_witness :
    ((getCurrentBowler initialState).getCurrentFrame).isSome = true ∧
      (getCurrentBall initialState).isSome = true ∧
      (getCurrentPinStates initialState).isSome = true ∧
      (∀ b : Bowler, (b.frames.length : Int) ≤ b.currentFrame →
        b.getCurrentFrame = b.frames.getLast?) :=
  C10_query_totality initialState (by intro b hb; simp [initialState] at hb)

end Bowling

namespace Bowling
/-- The balls recorded at bowler index `i`, frame index `fi` (empty
lists for out-of-range indices). -/
def ballsAt (s : GameState) (i fi : Nat) : List Ball :=
  ((s.bowlers.getD i emptyBowler).frames.getD fi emptyFrame).balls

theorem getD_set_self {α} (l : List α) (i : Nat) (a d : α)
    (h : i < l.length) : (l.set i a).getD i d = a := by
  rw [List.getD_eq_getD_get?, List.get?_set_eq_of_lt a h, Option.getD_some]

theorem getD_set_ne {α} (l : List α) {i j : Nat} (a d : α) (h : i ≠ j) :
    (l.set i a).getD j d = l.getD j d := by
  rw [List.getD_eq_getD_get?, List.getD_eq_getD_get? (l := l)]
  congr 1
  rw [List.get?_eq_getElem?, List.get?_eq_getElem?]
  exact List.getElem?_set_ne h

theorem set_getD_eq {α} (l : List α) (n : Nat) (d : α) :
    l.set n (l.getD n d) = l := by
  induction l generalizing n with
  | nil => rfl
  | cons x xs ih =>
    cases n with
    | zero => rfl
    | succ m =>
      show x :: xs.set m (xs.getD m d) = x :: xs
      rw [ih]

theorem clampFrameIndex_frames (b : Bowler) :
    b.clampFrameIndex.frames = b.frames := by
  unfold Bowler.clampFrameIndex
  split <;> rfl

theorem scoreFramesLoop_map_balls (allF : List Frame) (frs : List Frame)
    (i : Nat) (run : Int) :
    ((scoreFramesLoop allF i frs run).1).map (·.balls) = frs.map (·.balls) := by
  induction frs generalizing i run with
  | nil => simp [scoreFramesLoop]
  | cons fr rest ih =>
    simp only [scoreFramesLoop]
    split <;> simp [ih]

theorem calculateBowlerScore_frames_balls (b : Bowler) :
    (calculateBowlerScore b).frames.map (·.balls) = b.frames.map (·.balls) :=
  scoreFramesLoop_map_balls b.frames b.frames 0 0

theorem getD_map_balls (m : List Frame) (fi : Nat) :
    (m.map (·.balls)).getD fi [] = (m.getD fi emptyFrame).balls :=
  List.getD_map m emptyFrame (·.balls)

theorem frames_balls_getD_of_map_eq {l l' : List Frame}
    (h : l'.map (·.balls) = l.map (·.balls)) (fi : Nat) :
    (l'.getD fi emptyFrame).balls = (l.getD fi emptyFrame).balls := by
  have h1 := congrArg (fun x => x.getD fi ([] : List Ball)) h
  simpa only [getD_map_balls] using h1

theorem calculateBowlerScore_emptyBowler :
    calculateBowlerScore emptyBowler = emptyBowler := by decide

theorem ballsAt_updateScoring (s : GameState) (i fi : Nat) :
    ballsAt (updateScoring s) i fi = ballsAt s i fi := by
  unfold ballsAt updateScoring
  have h1 : (List.map calculateBowlerScore s.bowlers).getD i emptyBowler =
      calculateBowlerScore (s.bowlers.getD i emptyBowler) := by
    rw [← calculateBowlerScore_emptyBowler]
    exact List.getD_map s.bowlers emptyBowler calculateBowlerScore
  rw [h1]
  exact frames_balls_getD_of_map_eq
    (calculateBowlerScore_frames_balls (s.bowlers.getD i emptyBowler)) fi

/-- Rewriting one bowler whose frame-ball lists agree with the old row
leaves every `ballsAt` untouched. -/
theorem ballsAt_set_of_map_eq {bl : List Bowler} {j : Nat} {b : Bowler}
    (hbf : b.frames.map (·.balls) =
      ((bl.getD j emptyBowler).frames).map (·.balls)) (i fi : Nat) :
    (((bl.set j b).getD i emptyBowler).frames.getD fi emptyFrame).balls =
      ((bl.getD i emptyBowler).frames.getD fi emptyFrame).balls := by
  by_cases hij : i = j
  · subst hij
    by_cases hi : i < bl.length
    · rw [getD_set_self _ _ _ _ hi]
      exact frames_balls_getD_of_map_eq hbf fi
    · rw [List.set_eq_of_length_le (by omega)]
  · rw [getD_set_ne bl b emptyBowler (Ne.symm hij)]

theorem map_balls_set_isComplete (frs : List Frame) (fi : Nat) :
    (frs.set fi { frs.getD fi emptyFrame with isComplete := true }).map
        (·.balls) = frs.map (·.balls) := by
  rw [List.map_set]
  have h : ({ frs.getD fi emptyFrame with isComplete := true } : Frame).balls
      = (frs.map (·.balls)).getD fi [] := (getD_map_balls frs fi).symm
  rw [h, set_getD_eq]

theorem ballsAt_checkGameCompletion (s : GameState) (i fi : Nat) :
    ballsAt (checkGameCompletion s) i fi = ballsAt s i fi := by
  simp only [checkGameCompletion, endGame]
  split
  · split <;> rfl
  · rfl

theorem ballsAt_nextPlayer (s : GameState) (i fi : Nat) :
    ballsAt (nextPlayer s) i fi = ballsAt s i fi := by
  simp only [nextPlayer]
  split
  · rename_i h
    rw [ballsAt_checkGameCompletion]
    unfold ballsAt
    apply ballsAt_set_of_map_eq
    rw [apply_ite (fun b : Bowler => b.frames)]
    simp only [clampFrameIndex_frames, ite_self]
  · rfl

theorem ballsAt_checkFrameCompletion (s : GameState) (i fi : Nat) :
    ballsAt (checkFrameCompletion s) i fi = ballsAt s i fi := by
  simp only [checkFrameCompletion]
  split
  · rename_i h
    split
    · rename_i hcf
      split
      · rw [ballsAt_nextPlayer]
        unfold ballsAt
        apply ballsAt_set_of_map_eq
        rw [map_balls_set_isComplete, clampFrameIndex_frames]
      · unfold ballsAt
        apply ballsAt_set_of_map_eq
        rw [clampFrameIndex_frames]
    · rfl
  · rfl

end Bowling

namespace Bowling

theorem clampFrameIndex_eq_self {b : Bowler}
    (h : b.currentFrame < (b.frames.length : Int)) :
    b.clampFrameIndex = b := by
  unfold Bowler.clampFrameIndex
  rw [if_neg (by omega)]

/-- An active one-player game fresh out of `startGame`. -/
def c2State : GameState := startGame ["A"] 0 initialState

/-- C2 counterexample: the malformed pin vector `[1,1,1]` (length 3) is
not rejected by `processBall`: the state mutates and a value-0 ball is
appended to the current frame. -/
theorem C2_counterexample :
    processBall [1, 1, 1] c2State ≠ c2State ∧
      ballsAt (processBall [1, 1, 1] c2State) 0 0 = [ballOfPins [1, 1, 1]] := by
  decide

/-- C2 (amended): `processBall` performs no pin-vector validation.  The
state is left unchanged exactly by the guard (game inactive, held, or
empty roster); otherwise any pin vector — malformed or not — is
accepted and a ball (of value `calculateValue pins`, 0 for a wrong
length) is appended to the current bowler's current frame, with no
error reported. -/
theorem C2_processBall_no_validation :
    (∀ (pins : List Int) (s : GameState),
      s.gameActive = false ∨ s.isHeld = true ∨ s.bowlers = [] →
      processBall pins s = s) ∧
    (∀ (pins : List Int) (s : GameState),
      s.gameActive = true → s.isHeld = false →
      0 ≤ s.currentBowlerIndex →
      s.currentBowlerIndex.toNat < s.bowlers.length →
      0 ≤ (s.bowlers.getD s.currentBowlerIndex.toNat emptyBowler).currentFrame →
      (s.bowlers.getD s.currentBowlerIndex.toNat emptyBowler).currentFrame <
        ((s.bowlers.getD s.currentBowlerIndex.toNat
          emptyBowler).frames.length : Int) →
      ballsAt (processBall pins s) s.currentBowlerIndex.toNat
          (s.bowlers.getD s.currentBowlerIndex.toNat
            emptyBowler).currentFrame.toNat =
        ballsAt s s.currentBowlerIndex.toNat
            (s.bowlers.getD s.currentBowlerIndex.toNat
              emptyBowler).currentFrame.toNat ++ [ballOfPins pins]) := by
  constructor
  · intro pins s h
    unfold processBall
    rw [if_pos]
    rcases h with h | h | h
    · exact Or.inl (by simp [h])
    · exact Or.inr (Or.inl (by simp [h]))
    · exact Or.inr (Or.inr (by simp [h]))
  · intro pins s hga hh hi0 hilt hcf0 hcflt
    have hclamp : (s.bowlers.getD s.currentBowlerIndex.toNat
        emptyBowler).clampFrameIndex =
        s.bowlers.getD s.currentBowlerIndex.toNat emptyBowler :=
      clampFrameIndex_eq_self hcflt
    simp only [processBall]
    rw [if_neg (by
      simp [hga, hh, List.isEmpty_iff]
      intro hb
      rw [hb] at hilt
      simp at hilt)]
    rw [if_pos ⟨hi0, hilt⟩, hclamp]
    rw [if_pos ⟨hcf0, by omega⟩]
    rw [ballsAt_checkFrameCompletion, ballsAt_updateScoring]
    unfold ballsAt
    dsimp only
    rw [getD_set_self _ _ _ _ hilt]
    dsimp only
    rw [getD_set_self _ _ _ _ (by omega)]

/-- Witness for C2 (amended): the guard case at the fresh (inactive)
state, and the append case for the malformed vector `[1,1,1]` in an
active game. -/
theorem C2_processBall_no_validation_witness :
    processBall [1, 1, 1] initialState = initialState ∧
      ballsAt (processBall [1, 1, 1] c2State) c2State.currentBowlerIndex.toNat
          (c2State.bowlers.getD c2State.currentBowlerIndex.toNat
            emptyBowler).currentFrame.toNat =
        ballsAt c2State c2State.currentBowlerIndex.toNat
            (c2State.bowlers.getD c2State.currentBowlerIndex.toNat
              emptyBowler).currentFrame.toNat ++ [ballOfPins [1, 1, 1]] :=
  ⟨C2_processBall_no_validation.1 [1, 1, 1] initialState (Or.inl rfl),
   C2_processBall_no_validation.2 [1, 1, 1] c2State (by decide) (by decide)
     (by decide) (by decide) (by decide) (by decide)⟩

end Bowling


namespace Bowling

/-- A two-ball sequence with overlapping pin vectors: after
`startGame(["A"])`, ball `[1,1,0,0,0]` (value 5) and ball `[1,1,1,1,1]`
(value 15) land in the same frame. -/
def c3S3 : GameState :=
  processBall [1, 1, 1, 1, 1]
    (processBall [1, 1, 0, 0, 0] (startGame ["A"] 0 initialState))

/-- C3 counterexample: `c3S3` is reachable through the public
operations and its first bowler's first frame records balls summing to
20 > 15, so the claimed invariant fails. -/
theorem C3_counterexample :
    Reachable c3S3 ∧
      (c3S3.bowlers.getD 0 emptyBowler) ∈ c3S3.bowlers ∧
      ((c3S3.bowlers.getD 0 emptyBowler).frames.getD 0 emptyFrame) ∈
        (c3S3.bowlers.getD 0 emptyBowler).frames ∧
      ((c3S3.bowlers.getD 0 emptyBowler).frames.getD 0 emptyFrame).getFrameTotal
        = 20 ∧
      ¬ ((c3S3.bowlers.getD 0 emptyBowler).frames.getD 0
          emptyFrame).getFrameTotal ≤ 15 :=
  ⟨Reachable.step_ball _ (Reachable.step_ball _
      (Reachable.step_start ["A"] 0 Reachable.init)),
   by decide, by decide, by decide, by decide⟩

theorem getD_replicate_emptyFrame (r n : Nat) :
    (List.replicate r emptyFrame).getD n emptyFrame = emptyFrame := by
  by_cases h : n < r
  · rw [List.getD_eq_getElem _ _ (by simpa using h)]
    exact List.getElem_replicate _ _
  · exact List.getD_eq_default _ _ (by simpa using h)

/-- Bridge between the per-bowler membership form and the indexed
`ballsAt` form. -/
theorem memBalls_iff (s : GameState) (P : Ball → Prop) :
    (∀ b ∈ s.bowlers, ∀ fr ∈ b.frames, ∀ ball ∈ fr.balls, P ball) ↔
      (∀ i fi : Nat, ∀ ball ∈ ballsAt s i fi, P ball) := by
  constructor
  · intro h i fi ball hb
    unfold ballsAt at hb
    by_cases hi : i < s.bowlers.length
    · have hbmem : s.bowlers.getD i emptyBowler ∈ s.bowlers := by
        rw [List.getD_eq_getElem _ _ hi]
        exact List.getElem_mem hi
      by_cases hfi : fi < (s.bowlers.getD i emptyBowler).frames.length
      · have hfmem : (s.bowlers.getD i emptyBowler).frames.getD fi emptyFrame
            ∈ (s.bowlers.getD i emptyBowler).frames := by
          rw [List.getD_eq_getElem _ _ hfi]
          exact List.getElem_mem hfi
        exact h _ hbmem _ hfmem ball hb
      · have hrow : (s.bowlers.getD i emptyBowler).frames.getD fi emptyFrame
            = emptyFrame := List.getD_eq_default _ _ (by omega)
        rw [hrow] at hb
        simp [emptyFrame] at hb
    · have hrow : s.bowlers.getD i emptyBowler = emptyBowler :=
        List.getD_eq_default _ _ (by omega)
      rw [hrow] at hb
      rw [show emptyBowler.frames = List.replicate 10 emptyFrame from rfl,
        getD_replicate_emptyFrame] at hb
      simp [emptyFrame] at hb
  · intro h b hb fr hfr ball hball
    obtain ⟨i, hi, rfl⟩ := List.getElem_of_mem hb
    obtain ⟨fi, hfi, rfl⟩ := List.getElem_of_mem hfr
    apply h i fi
    unfold ballsAt
    rw [List.getD_eq_getElem _ _ hi, List.getD_eq_getElem _ _ hfi]
    exact hball

/-- Every `processBall` either leaves a cell alone or appends exactly
the new ball to it. -/
theorem ballsAt_processBall (pins : List Int) (s : GameState) (i fi : Nat) :
    ballsAt (processBall pins s) i fi = ballsAt s i fi ∨
      ballsAt (processBall pins s) i fi =
        ballsAt s i fi ++ [ballOfPins pins] := by
  simp only [processBall]
  split
  · exact Or.inl rfl
  · split
    · rename_i hguard hidx
      split
      · rename_i hcf
        rw [ballsAt_checkFrameCompletion, ballsAt_updateScoring]
        unfold ballsAt
        dsimp only
        rw [clampFrameIndex_frames] at hcf ⊢
        by_cases hij : i = s.currentBowlerIndex.toNat
        · rw [hij, getD_set_self _ _ _ _ hidx.2]
          dsimp only
          by_cases hfi : fi = ((s.bowlers.getD s.currentBowlerIndex.toNat
              emptyBowler).clampFrameIndex.currentFrame).toNat
          · rw [hfi, getD_set_self _ _ _ _ hcf.2]
            exact Or.inr rfl
          · rw [getD_set_ne _ _ _ (fun h => hfi h.symm)]
            exact Or.inl rfl
        · rw [getD_set_ne _ _ _ (fun h => hij h.symm)]
          exact Or.inl rfl
      · exact Or.inl rfl
    · exact Or.inl rfl

theorem fillMisses_balls_mem (fr : Frame) (fn : Int) :
    ∀ ball ∈ (fillMisses fr fn).balls, ball ∈ fr.balls ∨ ball = missBall := by
  induction fr, fn using fillMisses.induct with
  | case1 fr fn h ih =>
    rw [fillMisses, dif_pos h]
    intro ball hb
    rcases ih ball hb with hmem | hnew
    · rcases List.mem_append.mp hmem with h1 | h1
      · exact Or.inl h1
      · simp only [List.mem_singleton] at h1
        exact Or.inr h1
    · exact Or.inr hnew
  | case2 fr fn h =>
    rw [fillMisses, dif_neg h]
    intro ball hb
    exact Or.inl hb

/-- Every `skipPlayer` either leaves a cell alone or only adds miss
balls to it. -/
theorem ballsAt_skipPlayer (s : GameState) (i fi : Nat) :
    ∀ ball ∈ ballsAt (skipPlayer s) i fi,
      ball ∈ ballsAt s i fi ∨ ball = missBall := by
  simp only [skipPlayer]
  split
  · exact fun ball hb => Or.inl hb
  · split
    · rename_i hguard hidx
      split
      · rename_i hcf
        rw [ballsAt_nextPlayer, ballsAt_updateScoring]
        unfold ballsAt
        dsimp only
        rw [clampFrameIndex_frames] at hcf ⊢
        by_cases hij : i = s.currentBowlerIndex.toNat
        · rw [hij, getD_set_self _ _ _ _ hidx.2]
          dsimp only
          by_cases hfi : fi = ((s.bowlers.getD s.currentBowlerIndex.toNat
              emptyBowler).clampFrameIndex.currentFrame).toNat
          · rw [hfi, getD_set_self _ _ _ _ hcf.2]
            intro ball hb
            exact fillMisses_balls_mem _ _ ball hb
          · rw [getD_set_ne _ _ _ (fun h => hfi h.symm)]
            exact fun ball hb => Or.inl hb
        · rw [getD_set_ne _ _ _ (fun h => hij h.symm)]
          exact fun ball hb => Or.inl hb
      · exact fun ball hb => Or.inl hb
    · exact fun ball hb => Or.inl hb

theorem ballsAt_startGame (names : List String) (gl : Int) (s : GameState)
    (i fi : Nat) : ballsAt (startGame names gl s) i fi = [] := by
  unfold ballsAt startGame
  dsimp only
  have h1 : ∀ (R : List String),
      (List.map mkBowler R).getD i emptyBowler = mkBowler (R.getD i "") :=
    fun R => List.getD_map R "" mkBowler
  rw [h1]
  rw [show (mkBowler ((if (names.filter (fun n => n ≠ "")).isEmpty
      then ["Player 1", "Player 2"]
      else names.filter (fun n => n ≠ "")).getD i "")).frames
    = List.replicate 10 emptyFrame from rfl]
  rw [getD_replicate_emptyFrame]
  rfl

theorem reset_emptyBowler : Bowler.reset emptyBowler = emptyBowler := rfl

theorem ballsAt_resetGame (s : GameState) (i fi : Nat) :
    ballsAt (resetGame s) i fi = [] := by
  unfold ballsAt resetGame
  dsimp only
  have h1 : (List.map Bowler.reset s.bowlers).getD i emptyBowler
      = Bowler.reset (s.bowlers.getD i emptyBowler) := by
    rw [← reset_emptyBowler]
    exact List.getD_map s.bowlers emptyBowler Bowler.reset
  rw [h1]
  rw [show (Bowler.reset (s.bowlers.getD i emptyBowler)).frames
    = List.replicate 10 emptyFrame from rfl]
  rw [getD_replicate_emptyFrame]
  rfl

theorem missBall_value_bounds : 0 ≤ missBall.value ∧ missBall.value ≤ 15 := by
  decide

/-- C3 (amended): in every reachable state, every recorded ball has a
value between 0 and 15.  (A frame's balls can sum to more than 15:
overlapping pin vectors are not rejected, and the tenth frame holds up
to three strikes by design.) -/
theorem C3_ball_value_invariant (s : GameState) (hs : Reachable s) :
    ∀ b ∈ s.bowlers, ∀ fr ∈ b.frames, ∀ ball ∈ fr.balls,
      0 ≤ ball.value ∧ ball.value ≤ 15 := by
  induction hs with
  | init => intro b hb; simp [initialState] at hb
  | step_start names gl _ _ =>
    rw [memBalls_iff]
    intro i fi ball hb
    rw [ballsAt_startGame] at hb
    simp at hb
  | step_ball pins _ ih =>
    rw [memBalls_iff]
    intro i fi ball hb
    rename_i s' _
    rcases ballsAt_processBall pins s' i fi with he | he
    · rw [he] at hb
      exact (memBalls_iff s' _).mp ih i fi ball hb
    · rw [he] at hb
      rcases List.mem_append.mp hb with h1 | h1
      · exact (memBalls_iff s' _).mp ih i fi ball h1
      · simp only [List.mem_singleton] at h1
        subst h1
        exact ⟨calculateValue_nonneg pins, calculateValue_le pins⟩
  | step_skip _ ih =>
    rw [memBalls_iff]
    intro i fi ball hb
    rename_i s' _
    rcases ballsAt_skipPlayer s' i fi ball hb with h1 | h1
    · exact (memBalls_iff s' _).mp ih i fi ball h1
    · subst h1
      exact missBall_value_bounds
  | step_hold _ ih => exact ih
  | step_end _ ih => exact ih
  | step_reset _ _ =>
    rw [memBalls_iff]
    intro i fi ball hb
    rw [ballsAt_resetGame] at hb
    simp at hb

/-- Witness for C3 (amended) at the reachable state `c3S3`: the
15-valued second ball of the first frame is within bounds. -/
theorem C3_ball_value_invariant_witness :
    0 ≤ (ballOfPins [1, 1, 1, 1, 1]).value ∧
      (ballOfPins [1, 1, 1, 1, 1]).value ≤ 15 :=
  C3_ball_value_invariant c3S3
    (Reachable.step_ball _ (Reachable.step_ball _
      (Reachable.step_start ["A"] 0 Reachable.init)))
    (c3S3.bowlers.getD 0 emptyBowler) (by decide)
    ((c3S3.bowlers.getD 0 emptyBowler).frames.getD 0 emptyFrame) (by decide)
    (ballOfPins [1, 1, 1, 1, 1]) (by decide)

end Bowling

namespace Machine

/-- `MachineInterface::MachineState` (`MachineInterface.h`). -/
inductive MState where
  | IDLE
  | RESETTING
  | SETTING_PINS
  | WAITING_B21
deriving Repr, DecidableEq

/-- The `MachineInterface` fields read or written by the ball-detection
path. -/
structure MachineCtrl where
  currentState : MState
  gameActive : Bool
  detectionActive : Bool
  detectionSuspended : Bool
  ballDetectionCounter : Int
  detectionThreshold : Int
  debounceTimeMs : Int
  lastDetectionTime : Int
  currentPinStates : List Int
deriving Repr, DecidableEq

/-- Field values established by the `MachineInterface` constructor
(`lastDetectionTime` is first assigned by `startBallDetection`; 0 here). -/
def miInit : MachineCtrl :=
  { currentState := .IDLE, gameActive := false, detectionActive := false,
    detectionSuspended := false, ballDetectionCounter := 0,
    detectionThreshold := 10, debounceTimeMs := 500,
    lastDetectionTime := 0, currentPinStates := [1, 1, 1, 1, 1] }

/-- `MachineInterface::checkBallSensor` (hardware branch): `sensorHigh`
is `digitalRead(gp7) == HIGH`, `now` the current epoch milliseconds and
`reading` the `readPinSensors()` result.  Returns the new state and the
payload of the `ballDetected` signal when one fires. -/
def checkBallSensor (m : MachineCtrl) (sensorHigh : Bool) (now : Int)
    (reading : List Int) : MachineCtrl × Option (List Int) :=
  if ¬m.detectionActive ∨ m.detectionSuspended ∨ ¬m.gameActive ∨
      m.currentState ≠ .IDLE then (m, none)
  else if sensorHigh then
    if m.ballDetectionCounter + 1 ≥ m.detectionThreshold then
      if now - m.lastDetectionTime ≥ m.debounceTimeMs then
        ({ m with
            ballDetectionCounter := 0, lastDetectionTime := now,
            currentPinStates := reading }, some reading)
      else ({ m with ballDetectionCounter := 0 }, none)
    else ({ m with ballDetectionCounter := m.ballDetectionCounter + 1 }, none)
  else ({ m with ballDetectionCounter := 0 }, none)

/-- `MachineInterface::onBallDetectionTimer`: gate on
`detectionActive`/`detectionSuspended`, then poll the sensor. -/
def onBallDetectionTimer (m : MachineCtrl) (sensorHigh : Bool) (now : Int)
    (reading : List Int) : MachineCtrl × Option (List Int) :=
  if ¬m.detectionActive ∨ m.detectionSuspended then (m, none)
  else checkBallSensor m sensorHigh now reading

/-- C6: whenever the machine is not idle, the game is inactive,
detection is inactive, or detection is suspended, a detection-timer
tick changes nothing and fires no `ballDetected` event. -/
theorem C6_detection_gate (m : MachineCtrl) (sensorHigh : Bool) (now : Int)
    (reading : List Int)
    (h : m.currentState ≠ .IDLE ∨ m.gameActive = false ∨
      m.detectionActive = false ∨ m.detectionSuspended = true) :
    onBallDetectionTimer m sensorHigh now reading = (m, none) := by
  unfold onBallDetectionTimer checkBallSensor
  rcases h with h | h | h | h
  · split
    · rfl
    · rw [if_pos (Or.inr (Or.inr (Or.inr h)))]
  · split
    · rfl
    · rw [if_pos (Or.inr (Or.inr (Or.inl (by simp [h]))))]
  · rw [if_pos (Or.inl (by simp [h]))]
  · split
    · rfl
    · rw [if_pos (Or.inr (Or.inl h))]

/-- Witness for C6: a tick during a reset cycle (machine busy, game
active, detection armed) is ignored. -/
theorem C6_detection_gate_witness :
    onBallDetectionTimer
        { miInit with
          currentState := .RESETTING, gameActive := true,
          detectionActive := true } true 1000 [0, 0, 0, 0, 0] =
      ({ miInit with
          currentState := .RESETTING, gameActive := true,
          detectionActive := true }, none) :=
  C6_detection_gate _ true 1000 [0, 0, 0, 0, 0] (Or.inl (by decide))

/-- C7: debounce step.  With the gate open (idle machine, game active,
detection armed and not suspended): a positive sample below the
threshold just increments the counter; a detection fires exactly when
the incremented counter reaches the threshold and at least the
debounce interval has elapsed since the last accepted detection, after
which the counter is 0 and `lastDetectionTime`/`currentPinStates` are
updated; a non-positive sample resets the counter and never fires.
The constructor defaults are threshold 10 and interval 500 ms. -/
theorem C7_debounce_step (m : MachineCtrl) (now : Int) (reading : List Int)
    (hIdle : m.currentState = .IDLE) (hga : m.gameActive = true)
    (hda : m.detectionActive = true) (hds : m.detectionSuspended = false) :
    ((checkBallSensor m true now reading).2 = some reading ↔
      m.ballDetectionCounter + 1 ≥ m.detectionThreshold ∧
        now - m.lastDetectionTime ≥ m.debounceTimeMs) ∧
    (m.ballDetectionCounter + 1 ≥ m.detectionThreshold ∧
        now - m.lastDetectionTime ≥ m.debounceTimeMs →
      (checkBallSensor m true now reading).1.ballDetectionCounter = 0 ∧
        (checkBallSensor m true now reading).1.lastDetectionTime = now ∧
        (checkBallSensor m true now reading).1.currentPinStates = reading) ∧
    (m.ballDetectionCounter + 1 < m.detectionThreshold →
      (checkBallSensor m true now reading).1.ballDetectionCounter =
        m.ballDetectionCounter + 1) ∧
    ((checkBallSensor m false now reading).1.ballDetectionCounter = 0 ∧
      (checkBallSensor m false now reading).2 = none) ∧
    (miInit.detectionThreshold = 10 ∧ miInit.debounceTimeMs = 500) := by
  have hgate : ¬(¬m.detectionActive = true ∨ m.detectionSuspended = true ∨
      ¬m.gameActive = true ∨ m.currentState ≠ MState.IDLE) := by
    simp [hIdle, hga, hda, hds]
  unfold checkBallSensor
  rw [if_neg hgate, if_neg hgate]
  refine ⟨?_, ?_, ?_, ?_, by decide⟩
  · constructor
    · intro hfire
      by_cases hth : m.ballDetectionCounter + 1 ≥ m.detectionThreshold
      · by_cases hdt : now - m.lastDetectionTime ≥ m.debounceTimeMs
        · exact ⟨hth, hdt⟩
        · rw [if_pos rfl, if_pos hth, if_neg hdt] at hfire
          simp at hfire
      · rw [if_pos rfl, if_neg hth] at hfire
        simp at hfire
    · intro ⟨hth, hdt⟩
      rw [if_pos rfl, if_pos hth, if_pos hdt]
  · intro ⟨hth, hdt⟩
    rw [if_pos rfl, if_pos hth, if_pos hdt]
    exact ⟨rfl, rfl, rfl⟩
  · intro hth
    rw [if_pos rfl, if_neg (by omega)]
  · rw [if_neg (by simp)]
    exact ⟨rfl, rfl⟩

/-- Witness for C7: a gate-open state one sample short of the threshold
with the debounce interval elapsed; the detection fires. -/
theorem C7_debounce_step_witness :
    (((checkBallSensor
          { miInit with
            gameActive := true, detectionActive := true,
            ballDetectionCounter := 9 } true 1000 [0, 1, 1, 1, 0]).2 =
        some [0, 1, 1, 1, 0] ↔
      (9 : Int) + 1 ≥ 10 ∧ (1000 : Int) - 0 ≥ 500) ∧
      ((9 : Int) + 1 ≥ 10 ∧ (1000 : Int) - 0 ≥ 500 →
        (checkBallSensor
            { miInit with
              gameActive := true, detectionActive := true,
              ballDetectionCounter := 9 } true 1000
            [0, 1, 1, 1, 0]).1.ballDetectionCounter = 0 ∧
          (checkBallSensor
              { miInit with
                gameActive := true, detectionActive := true,
                ballDetectionCounter := 9 } true 1000
              [0, 1, 1, 1, 0]).1.lastDetectionTime = 1000 ∧
          (checkBallSensor
              { miInit with
                gameActive := true, detectionActive := true,
                ballDetectionCounter := 9 } true 1000
              [0, 1, 1, 1, 0]).1.currentPinStates = [0, 1, 1, 1, 0]) ∧
      ((9 : Int) + 1 < 10 →
        (checkBallSensor
            { miInit with
              gameActive := true, detectionActive := true,
              ballDetectionCounter := 9 } true 1000
            [0, 1, 1, 1, 0]).1.ballDetectionCounter = (9 : Int) + 1) ∧
      ((checkBallSensor
            { miInit with
              gameActive := true, detectionActive := true,
              ballDetectionCounter := 9 } false 1000
            [0, 1, 1, 1, 0]).1.ballDetectionCounter = 0 ∧
        (checkBallSensor
            { miInit with
              gameActive := true, detectionActive := true,
              ballDetectionCounter := 9 } false 1000
            [0, 1, 1, 1, 0]).2 = none) ∧
      (miInit.detectionThreshold = 10 ∧ miInit.debounceTimeMs = 500)) :=
  C7_debounce_step
    { miInit with
      gameActive := true, detectionActive := true,
      ballDetectionCounter := 9 } 1000 [0, 1, 1, 1, 0]
    (by decide) (by decide) (by decide) (by decide)

end Machine

namespace Lane

/-- `ClientConnectionState` (`LaneClient.h`). -/
inductive CState where
  | Disconnected
  | Connecting
  | Connected
  | Reconnecting
deriving Repr, DecidableEq

/-- The `LaneClient` fields touched by the connection/backoff path.
`scheduledReconnectDelay` records the interval passed to
`m_reconnectTimer->start(delay)` by the last `onError`. -/
structure Client where
  connectionState : CState
  registered : Bool
  heartbeatActive : Bool
  reconnectAttempts : Nat
  scheduledReconnectDelay : Option Int
deriving Repr, DecidableEq

/-- `LaneClient::onError`: on a socket error while connected or
connecting, enter `Reconnecting`, drop registration and heartbeats, and
start the reconnect timer with delay
`std::min(1000 * (1 << m_reconnectAttempts), 30000)`, then increment
the attempt counter.  (Modelled with exact integer arithmetic; it
agrees with the 32-bit source expression whenever
`reconnectAttempts ≤ 21`, past which the C++ shift/multiply would
overflow — unreachable in practice, since `attemptReconnection` resets
the counter at 10.) -/
def onError (c : Client) : Client :=
  if c.connectionState = .Connected ∨ c.connectionState = .Connecting then
    { c with
      connectionState := .Reconnecting, registered := false,
      heartbeatActive := false,
      scheduledReconnectDelay := some (min (1000 * 2 ^ c.reconnectAttempts) 30000),
      reconnectAttempts := c.reconnectAttempts + 1 }
  else c

/-- The state effect of `LaneClient::onConnected`: state `Connected`
and the attempt counter cleared (registration send is I/O). -/
def onConnected (c : Client) : Client :=
  { c with connectionState := .Connected, reconnectAttempts := 0 }

/-- C8: with the counter at `n`, a socket error while connected or
connecting schedules a reconnect delay of exactly
`min(1000 · 2^n, 30000)` and bumps the counter; a successful connection
resets the counter to 0, so the next scheduled delay is the base
1000 ms.  (`hn` bounds the counter to the overflow-free range of the
32-bit source expression; see `onError`.) -/
theorem C8_backoff (c : Client)
    (hc : c.connectionState = .Connected ∨ c.connectionState = .Connecting)
    (hn : c.reconnectAttempts ≤ 21) :
    (onError c).scheduledReconnectDelay =
        some (min (1000 * 2 ^ c.reconnectAttempts) 30000) ∧
      (onError c).reconnectAttempts = c.reconnectAttempts + 1 ∧
      (onConnected c).reconnectAttempts = 0 ∧
      (onError (onConnected c)).scheduledReconnectDelay = some 1000 := by
  refine ⟨?_, ?_, rfl, ?_⟩
  · unfold onError
    rw [if_pos hc]
  · unfold onError
    rw [if_pos hc]
  · unfold onError onConnected
    rw [if_pos (Or.inl rfl)]
    simp

/-- Witness for C8 at a connected client with 3 prior attempts: the
scheduled delay is `min(8000, 30000) = 8000` ms. -/
theorem C8_backoff_witness :
    (onError
        { connectionState := .Connected, registered := true,
          heartbeatActive := true, reconnectAttempts := 3,
          scheduledReconnectDelay := none }).scheduledReconnectDelay =
        some (min (1000 * 2 ^ 3) 30000) ∧
      (onError
          { connectionState := .Connected, registered := true,
            heartbeatActive := true, reconnectAttempts := 3,
            scheduledReconnectDelay := none }).reconnectAttempts = 3 + 1 ∧
      (onConnected
          { connectionState := .Connected, registered := true,
            heartbeatActive := true, reconnectAttempts := 3,
            scheduledReconnectDelay := none }).reconnectAttempts = 0 ∧
      (onError (onConnected
          { connectionState := .Connected, registered := true,
            heartbeatActive := true, reconnectAttempts := 3,
            scheduledReconnectDelay := none })).scheduledReconnectDelay =
        some 1000 :=
  C8_backoff
    { connectionState := .Connected, registered := true,
      heartbeatActive := true, reconnectAttempts := 3,
      scheduledReconnectDelay := none } (Or.inl rfl) (by decide)

end Lane
